import Mathlib

/-!
# Verification of the flash-write session logic of the esptool flasher stub

This file gives a shallow embedding of `src/flasher_stub/stub_write_flash.c`
and proves properties of the flash session state machine: the `begin` /
`data` / `deflated_data` / `end` lifecycle, the erase scheduler, and the
sticky deferred error handling.

Modelling conventions:
* `uint32_t` values are `Nat` together with explicit `% 2^32` at every
  operation where the C code can wrap (additions into `next_write`, the
  `remaining -= length` decrement, the rounded-up sector count).
* C `int` values (`next_erase_sector`, `remaining_erase_sector`) are `Int`.
* The external SPI-flash capabilities (`SPIUnlock`, `SPIWrite`,
  `spiflash_is_ready`) are oracles passed in as booleans / boolean streams:
  the code only observes their success/failure and readiness results.
* The miniz streaming decoder (`tinfl_decompress`) is an oracle as well: a
  list of steps, each giving the number of compressed bytes consumed, the
  number of decompressed bytes produced and the returned status.  The
  consumed/produced numbers are clamped to the available input/space, which
  is exactly the guarantee the real decoder provides.
* The C `while` loops whose exit depends on the hardware oracles are modelled
  with explicit fuel returning `Option`: `none` means the loop did not finish
  within the given fuel, so non-termination of a loop is `= none` for every
  fuel.
-/

namespace FlasherStub

/-- Modelled from the spec: the command error codes (`esp_command_error` lives
in `stub_flasher.h`, which is not among the sources).  Only the identity of
the constructors matters for the session logic. -/
inductive EspError where
  | ESP_OK
  | ESP_FAILED_SPI_UNLOCK
  | ESP_FAILED_SPI_OP
  | ESP_INFLATE_ERROR
  | ESP_NOT_ENOUGH_DATA
  | ESP_TOO_MUCH_DATA
  | ESP_NOT_IN_FLASH_MODE
  deriving DecidableEq, Repr

/-- Modelled from the spec: `FLASH_SECTOR_SIZE` is defined in `soc_support.h`
(not among the sources); the spec fixes it at 4096 bytes, matching the code
comment "sector erase, 4KB". -/
def FLASH_SECTOR_SIZE : Nat := 4096

/-- Modelled from the spec: `SECTORS_PER_BLOCK` is defined in `soc_support.h`
(not among the sources); the spec fixes the block at 8 sectors = 32 KB,
matching the code comment "perform a 32KB block erase". -/
def SECTORS_PER_BLOCK : Nat := 8

/-- The modulus of `uint32_t` arithmetic. -/
def U32_MOD : Nat := 4294967296

/-- `uint32_t` subtraction `a - b`: wraparound modulo `2^32`, not
saturation. -/
def u32sub (a b : Nat) : Nat := (a + (U32_MOD - b % U32_MOD)) % U32_MOD

/-- Modelled from the spec/miniz: `TINFL_STATUS_DONE = 0` (`miniz.h` is not
among the sources).  Negative statuses are decoder errors, positive statuses
mean the decoder expects more input or has more output. -/
def TINFL_STATUS_DONE : Int := 0

/-- Modelled from the spec/miniz: the "needs more input" status, the positive
value the local `status` variable of `handle_flash_deflated_data` starts
at. -/
def TINFL_STATUS_NEEDS_MORE_INPUT : Int := 1

/-- The static `struct fs` of `stub_write_flash.c`.  The opaque
`tinfl_decompressor inflator` member is abstracted to a counter of
decompression calls since the last `tinfl_init` (the session logic never
inspects it). -/
structure FlashState where
  /-- `bool in_flash_mode`: set by flash_begin, cleared by flash_end. -/
  in_flash_mode : Bool
  /-- `uint32_t next_write`: offset of next SPI write. -/
  next_write : Nat
  /-- `int next_erase_sector`: sector number for next erase. -/
  next_erase_sector : Int
  /-- `uint32_t remaining`: number of output bytes remaining to write. -/
  remaining : Nat
  /-- `int remaining_erase_sector`: number of sectors remaining to erase. -/
  remaining_erase_sector : Int
  /-- `esp_command_error last_error`: last error generated by a data packet. -/
  last_error : EspError
  /-- abstraction of `tinfl_decompressor inflator` (reset to 0 by
  `tinfl_init`). -/
  inflator : Nat
  /-- `uint32_t remaining_compressed`: compressed bytes remaining to read. -/
  remaining_compressed : Nat
  deriving DecidableEq, Repr

/-- A convenient all-zero initial state (the C struct is static, hence
zero-initialised). -/
def initFS : FlashState :=
  { in_flash_mode := false, next_write := 0, next_erase_sector := 0,
    remaining := 0, remaining_erase_sector := 0, last_error := .ESP_OK,
    inflator := 0, remaining_compressed := 0 }

/-- `bool is_in_flash_mode(void)` -/
def is_in_flash_mode (s : FlashState) : Bool := s.in_flash_mode

/-- `esp_command_error get_flash_error(void)` -/
def get_flash_error (s : FlashState) : EspError := s.last_error

/-- `esp_command_error handle_flash_begin(uint32_t total_size, uint32_t offset)`.
`unlockFails` is the oracle for `SPIUnlock() != 0`.  Note that
`total_size + FLASH_SECTOR_SIZE - 1` is computed in `uint32_t`, hence the
explicit `% U32_MOD`. -/
def handle_flash_begin (total_size offset : Nat) (unlockFails : Bool)
    (s : FlashState) : FlashState × EspError :=
  let s' := { s with
    in_flash_mode := true
    next_write := offset
    next_erase_sector := ((offset / FLASH_SECTOR_SIZE : Nat) : Int)
    remaining := total_size
    remaining_erase_sector :=
      ((((total_size + FLASH_SECTOR_SIZE - 1) % U32_MOD) / FLASH_SECTOR_SIZE : Nat) : Int)
    last_error := .ESP_OK }
  (s', if unlockFails then .ESP_FAILED_SPI_UNLOCK else .ESP_OK)

/-- `esp_command_error handle_flash_deflated_begin(uint32_t uncompressed_size,
uint32_t compressed_size, uint32_t offset)`: delegates to `handle_flash_begin`
with the uncompressed size, then `tinfl_init(&fs.inflator)` and
`fs.remaining_compressed = compressed_size`. -/
def handle_flash_deflated_begin (uncompressed_size compressed_size offset : Nat)
    (unlockFails : Bool) (s : FlashState) : FlashState × EspError :=
  let r := handle_flash_begin uncompressed_size offset unlockFails s
  ({ r.1 with inflator := 0, remaining_compressed := compressed_size }, r.2)

/-- `static void start_next_erase(void)`.  `ready` is the oracle for
`spiflash_is_ready()` (polled only when sectors remain).  Besides the new
state, returns the erased unit as `some (first sector index, sector count)`,
or `none` when nothing was erased. -/
def start_next_erase (ready : Bool) (s : FlashState) :
    FlashState × Option (Int × Int) :=
  if s.remaining_erase_sector = 0 then (s, none)
  else if !ready then (s, none)
  else
    let n : Int :=
      if (SECTORS_PER_BLOCK : Int) ≤ s.remaining_erase_sector ∧
          s.next_erase_sector.tmod (SECTORS_PER_BLOCK : Int) = 0 then
        (SECTORS_PER_BLOCK : Int)
      else 1
    ({ s with remaining_erase_sector := s.remaining_erase_sector - n,
              next_erase_sector := s.next_erase_sector + n },
     some (s.next_erase_sector, n))

/-- Iterated `start_next_erase` with an arbitrary finite sequence of readiness
poll results: models any sequence of erase-scheduler invocations within a
session.  Returns the final state and the list of erased units. -/
def eraseRun : List Bool → FlashState → FlashState × List (Int × Int)
  | [], s => (s, [])
  | b :: bs, s =>
    let r := start_next_erase b s
    let rest := eraseRun bs r.1
    (rest.1, r.2.elim rest.2 (fun u => u :: rest.2))

/-- The `while(fs.next_erase_sector < last_sector) start_next_erase();` loop
of `handle_flash_data`.  `ready i` is the result of the readiness poll of the
`i`-th iteration; `fuel` bounds the number of iterations, `none` meaning the
loop did not finish within `fuel` iterations. -/
def eraseLoop (ready : Nat → Bool) (last : Int) (i fuel : Nat)
    (s : FlashState) : Option (FlashState × List (Int × Int)) :=
  match fuel with
  | 0 => if s.next_erase_sector < last then none else some (s, [])
  | fuel' + 1 =>
    if s.next_erase_sector < last then
      let r := start_next_erase (ready i) s
      match eraseLoop ready last (i + 1) fuel' r.1 with
      | none => none
      | some (s', us) => some (s', r.2.elim us (fun u => u :: us))
    else some (s, [])

/-- `void handle_flash_data(void *data_buf, uint32_t length)`.  `writeFails`
is the oracle for `SPIWrite(...) != 0`; the byte contents play no role in the
session logic.  `int last_sector = (fs.next_write + length +
FLASH_SECTOR_SIZE - 1) / FLASH_SECTOR_SIZE` is `uint32_t` arithmetic, hence
the `% U32_MOD`. -/
def handle_flash_data (ready : Nat → Bool) (writeFails : Bool) (fuel : Nat)
    (len : Nat) (s : FlashState) : Option FlashState :=
  let last_sector : Int :=
    ((((s.next_write + len + (FLASH_SECTOR_SIZE - 1)) % U32_MOD) / FLASH_SECTOR_SIZE : Nat) : Int)
  match eraseLoop ready last_sector 0 fuel s with
  | none => none
  | some (s1, _) =>
    let s2 := if writeFails then { s1 with last_error := .ESP_FAILED_SPI_OP } else s1
    some { s2 with next_write := (s2.next_write + len) % U32_MOD,
                   remaining := u32sub s2.remaining len }

/-- The per-call oracles of one `handle_flash_data` invocation, used to model
sequences of raw data calls. -/
structure DataCall where
  ready : Nat → Bool
  writeFails : Bool
  fuel : Nat
  len : Nat

/-- A sequence of raw `handle_flash_data` calls. -/
def runData : List DataCall → FlashState → Option FlashState
  | [], s => some s
  | c :: cs, s =>
    match handle_flash_data c.ready c.writeFails c.fuel c.len s with
    | none => none
    | some s' => runData cs s'

/-- `esp_command_error handle_flash_end(void)` -/
def handle_flash_end (s : FlashState) : FlashState × EspError :=
  if s.in_flash_mode = false then (s, .ESP_NOT_IN_FLASH_MODE)
  else if 0 < s.remaining then (s, .ESP_NOT_ENOUGH_DATA)
  else ({ s with in_flash_mode := false }, s.last_error)

/-- The session state together with the `static uint8_t *next_out` fill
cursor of the `static uint8_t out_buf[32768]` buffer of
`handle_flash_deflated_data`.  Being function-level statics, these survive
across calls and across sessions; `fill` is `next_out - out_buf`. -/
structure StubState where
  fs : FlashState
  fill : Nat
  deriving DecidableEq, Repr

/-- `sizeof(out_buf)` of `handle_flash_deflated_data`. -/
def OUT_BUF_SIZE : Nat := 32768

/-- One oracle step for the loop body of `handle_flash_deflated_data`: the
readiness poll consumed by the opportunistic `start_next_erase`, the
`tinfl_decompress` result (consumed input bytes, produced output bytes,
returned status), and the oracles of the `handle_flash_data` flush that may
follow (readiness stream, `SPIWrite` failure, erase-loop fuel). -/
structure DeflStep where
  eready : Bool
  consumed : Nat
  produced : Nat
  status : Int
  flushReady : Nat → Bool
  flushFails : Bool
  flushFuel : Nat

/-- The `while(length > 0 && fs.remaining > 0 && status > TINFL_STATUS_DONE)`
loop of `handle_flash_deflated_data`.  One `DeflStep` is consumed per
iteration; an exhausted step list with the loop condition still true is
`none` (the modelled run does not cover the loop's continuation).  Consumed
and produced byte counts are clamped to `in_bytes = length` and
`out_bytes = OUT_BUF_SIZE - fill`, the bounds the real decoder respects.
Returns the final state and the final value of the local `status`. -/
def deflLoop : List DeflStep → Nat → Int → StubState → Option (StubState × Int)
  | steps, len, status, st =>
    if 0 < len ∧ 0 < st.fs.remaining ∧ TINFL_STATUS_DONE < status then
      match steps with
      | [] => none
      | step :: rest =>
        let fsE := (start_next_erase step.eready st.fs).1
        let c := min step.consumed len
        let p := min step.produced (OUT_BUF_SIZE - st.fill)
        let fs2 := { fsE with
          remaining_compressed := u32sub fsE.remaining_compressed c,
          inflator := fsE.inflator + 1 }
        let fill2 := st.fill + p
        if step.status ≤ TINFL_STATUS_DONE ∨ fill2 = OUT_BUF_SIZE then
          match handle_flash_data step.flushReady step.flushFails
              step.flushFuel fill2 fs2 with
          | none => none
          | some fs3 => deflLoop rest (len - c) step.status ⟨fs3, 0⟩
        else
          deflLoop rest (len - c) step.status ⟨fs2, fill2⟩
    else some (st, status)

/-- The three `if` statements after the loop of
`handle_flash_deflated_data`, applied in source order (later assignments
overwrite earlier ones). -/
def resolve_deflate_errors (status : Int) (fs : FlashState) : FlashState :=
  let e1 := if status < TINFL_STATUS_DONE then EspError.ESP_INFLATE_ERROR
            else fs.last_error
  let e2 := if status = TINFL_STATUS_DONE ∧ 0 < fs.remaining then
              EspError.ESP_NOT_ENOUGH_DATA
            else e1
  let e3 := if status ≠ TINFL_STATUS_DONE ∧ fs.remaining = 0 then
              EspError.ESP_TOO_MUCH_DATA
            else e2
  { fs with last_error := e3 }

/-- `void handle_flash_deflated_data(void *data_buf, uint32_t length)`:
the decode/flush loop followed by the deferred error-state resolution.  The
function returns no error code; errors are only recorded in the session
state. -/
def handle_flash_deflated_data (steps : List DeflStep) (len : Nat)
    (st : StubState) : Option StubState :=
  match deflLoop steps len TINFL_STATUS_NEEDS_MORE_INPUT st with
  | none => none
  | some (st1, status) => some ⟨resolve_deflate_errors status st1.fs, st1.fill⟩

/-! ## Basic lemmas about the erase scheduler -/

lemma start_next_erase_false (s : FlashState) : start_next_erase false s = (s, none) := by
  unfold start_next_erase
  split <;> simp

lemma start_next_erase_zero (b : Bool) (s : FlashState)
    (h : s.remaining_erase_sector = 0) : start_next_erase b s = (s, none) := by
  unfold start_next_erase
  simp [h]

/-- Either nothing happens, or a unit of `n` sectors starting at the cursor is
erased and both counters advance by `n`, with `1 ≤ n ≤ remaining`. -/
lemma start_next_erase_cases (b : Bool) (s : FlashState)
    (h0 : 0 ≤ s.remaining_erase_sector) :
    start_next_erase b s = (s, none) ∨
    ∃ n : Int, 1 ≤ n ∧ n ≤ s.remaining_erase_sector ∧
      start_next_erase b s =
        ({ s with remaining_erase_sector := s.remaining_erase_sector - n,
                  next_erase_sector := s.next_erase_sector + n },
         some (s.next_erase_sector, n)) := by
  by_cases hz : s.remaining_erase_sector = 0
  · left; exact start_next_erase_zero b s hz
  · cases b with
    | false => left; exact start_next_erase_false s
    | true =>
      right
      unfold start_next_erase
      by_cases hb : (SECTORS_PER_BLOCK : Int) ≤ s.remaining_erase_sector ∧
          s.next_erase_sector.tmod (SECTORS_PER_BLOCK : Int) = 0
      · refine ⟨(SECTORS_PER_BLOCK : Int), by norm_num [SECTORS_PER_BLOCK], hb.1, ?_⟩
        simp [hz, hb]
      · refine ⟨1, le_refl 1, by omega, ?_⟩
        simp [hz, hb]

/-- The erase scheduler only touches the two erase counters: all other fields
are preserved, the sum of the two counters is preserved, and the cursor never
moves backwards. -/
lemma start_next_erase_fields (b : Bool) (s : FlashState) :
    (start_next_erase b s).1.in_flash_mode = s.in_flash_mode ∧
    (start_next_erase b s).1.next_write = s.next_write ∧
    (start_next_erase b s).1.remaining = s.remaining ∧
    (start_next_erase b s).1.last_error = s.last_error ∧
    (start_next_erase b s).1.inflator = s.inflator ∧
    (start_next_erase b s).1.remaining_compressed = s.remaining_compressed ∧
    (start_next_erase b s).1.next_erase_sector +
      (start_next_erase b s).1.remaining_erase_sector =
      s.next_erase_sector + s.remaining_erase_sector ∧
    s.next_erase_sector ≤ (start_next_erase b s).1.next_erase_sector := by
  unfold start_next_erase
  split
  · exact ⟨rfl, rfl, rfl, rfl, rfl, rfl, rfl, le_refl _⟩
  · split
    · exact ⟨rfl, rfl, rfl, rfl, rfl, rfl, rfl, le_refl _⟩
    · refine ⟨rfl, rfl, rfl, rfl, rfl, rfl, by ring, ?_⟩
      have : (1:Int) ≤ if (SECTORS_PER_BLOCK : Int) ≤ s.remaining_erase_sector ∧
          s.next_erase_sector.tmod (SECTORS_PER_BLOCK : Int) = 0 then
            (SECTORS_PER_BLOCK : Int) else 1 := by
        split <;> norm_num [SECTORS_PER_BLOCK]
      simp only
      omega

lemma start_next_erase_nonneg (b : Bool) (s : FlashState)
    (h0 : 0 ≤ s.remaining_erase_sector) :
    0 ≤ (start_next_erase b s).1.remaining_erase_sector := by
  rcases start_next_erase_cases b s h0 with h | ⟨n, _, hn, h⟩ <;> rw [h] <;> simpa using by omega


/-- A successful erase loop preserves everything except the erase counters,
whose sum is invariant; the cursor only advances, and on success it has
reached `last`. -/
lemma eraseLoop_some_spec (ready : Nat → Bool) (last : Int) :
    ∀ (fuel i : Nat) (s s' : FlashState) (us : List (Int × Int)),
      eraseLoop ready last i fuel s = some (s', us) →
      s'.in_flash_mode = s.in_flash_mode ∧ s'.next_write = s.next_write ∧
      s'.remaining = s.remaining ∧ s'.last_error = s.last_error ∧
      s'.inflator = s.inflator ∧
      s'.remaining_compressed = s.remaining_compressed ∧
      s'.next_erase_sector + s'.remaining_erase_sector =
        s.next_erase_sector + s.remaining_erase_sector ∧
      s.next_erase_sector ≤ s'.next_erase_sector ∧
      last ≤ s'.next_erase_sector := by
  intro fuel
  induction fuel with
  | zero =>
    intro i s s' us h
    unfold eraseLoop at h
    by_cases hc : s.next_erase_sector < last
    · simp [hc] at h
    · simp [hc] at h
      obtain ⟨h1, h2⟩ := h
      subst h1
      exact ⟨rfl, rfl, rfl, rfl, rfl, rfl, rfl, le_refl _, by omega⟩
  | succ fuel ih =>
    intro i s s' us h
    unfold eraseLoop at h
    by_cases hc : s.next_erase_sector < last
    · simp only [hc, if_true] at h
      rcases hr : eraseLoop ready last (i + 1) fuel (start_next_erase (ready i) s).1 with _ | ⟨s2, us2⟩
      · rw [hr] at h; simp at h
      · rw [hr] at h
        simp at h
        obtain ⟨h1, -⟩ := h
        subst h1
        have hf := start_next_erase_fields (ready i) s
        have := ih (i+1) _ s2 us2 hr
        obtain ⟨a1, a2, a3, a4, a5, a6, a7, a8, a9⟩ := this
        refine ⟨a1.trans hf.1, a2.trans hf.2.1, a3.trans hf.2.2.1, a4.trans hf.2.2.2.1,
          a5.trans hf.2.2.2.2.1, a6.trans hf.2.2.2.2.2.1, ?_, ?_, a9⟩
        · rw [a7]; exact hf.2.2.2.2.2.2.1
        · exact le_trans hf.2.2.2.2.2.2.2 a8
    · simp [hc] at h
      obtain ⟨h1, h2⟩ := h
      subst h1
      exact ⟨rfl, rfl, rfl, rfl, rfl, rfl, rfl, le_refl _, by omega⟩


/-- When sectors remain and the device is ready, a unit is erased. -/
lemma start_next_erase_ready (s : FlashState) (hz : s.remaining_erase_sector ≠ 0)
    (h0 : 0 ≤ s.remaining_erase_sector) :
    ∃ n : Int, 1 ≤ n ∧ n ≤ s.remaining_erase_sector ∧
      start_next_erase true s =
        ({ s with remaining_erase_sector := s.remaining_erase_sector - n,
                  next_erase_sector := s.next_erase_sector + n },
         some (s.next_erase_sector, n)) := by
  unfold start_next_erase
  by_cases hb : (SECTORS_PER_BLOCK : Int) ≤ s.remaining_erase_sector ∧
      s.next_erase_sector.tmod (SECTORS_PER_BLOCK : Int) = 0
  · refine ⟨(SECTORS_PER_BLOCK : Int), by norm_num [SECTORS_PER_BLOCK], hb.1, ?_⟩
    simp [hz, hb]
  · refine ⟨1, le_refl 1, by omega, ?_⟩
    simp [hz, hb]

/-- An iteration whose readiness poll fails leaves the state unchanged and
just moves to the next poll. -/
lemma eraseLoop_step_notready (ready : Nat → Bool) (last : Int) (i fuel : Nat)
    (s : FlashState) (hc : s.next_erase_sector < last) (h : ready i = false) :
    eraseLoop ready last i (fuel + 1) s = eraseLoop ready last (i + 1) fuel s := by
  conv_lhs => unfold eraseLoop
  simp only [hc, if_true, h, start_next_erase_false]
  cases hr : eraseLoop ready last (i + 1) fuel s with
  | none => simp
  | some r => cases r with | mk s' us => simp [Option.elim]

/-- Skipping a run of failed readiness polls. -/
lemma eraseLoop_skip (ready : Nat → Bool) (last : Int) :
    ∀ (d i fuel : Nat) (s : FlashState), s.next_erase_sector < last →
      (∀ k, k < d → ready (i + k) = false) →
      eraseLoop ready last i (d + fuel) s = eraseLoop ready last (i + d) fuel s := by
  intro d
  induction d with
  | zero => intro i fuel s _ _; simp
  | succ d ih =>
    intro i fuel s hc hk
    have h1 : d + 1 + fuel = (d + fuel) + 1 := by omega
    rw [h1, eraseLoop_step_notready ready last i (d + fuel) s hc
      (by simpa using hk 0 (by omega))]
    have h2 := ih (i + 1) fuel s hc (fun k hk' => by
      have := hk (k + 1) (by omega)
      simpa [Nat.add_assoc, Nat.add_comm 1 k] using this)
    rw [h2]
    have h3 : i + 1 + d = i + (d + 1) := by omega
    rw [h3]

/-- Termination of the erase catch-up loop: whenever the erase budget still
covers the target sector (`last ≤ next + remaining`) and the readiness poll
reports ready infinitely often, some finite fuel makes the loop finish. -/
lemma eraseLoop_terminates (ready : Nat → Bool)
    (hready : ∀ i, ∃ j, i ≤ j ∧ ready j = true) (last : Int) :
    ∀ (n : Nat) (s : FlashState) (i : Nat),
      (last - s.next_erase_sector).toNat ≤ n →
      last ≤ s.next_erase_sector + s.remaining_erase_sector →
      0 ≤ s.remaining_erase_sector →
      ∃ fuel r, eraseLoop ready last i fuel s = some r := by
  intro n
  induction n with
  | zero =>
    intro s i hm hinv h0
    refine ⟨0, (s, []), ?_⟩
    unfold eraseLoop
    have hc : ¬ s.next_erase_sector < last := by omega
    simp [hc]
  | succ n ih =>
    intro s i hm hinv h0
    by_cases hc : s.next_erase_sector < last
    · have hex : ∃ d, ready (i + d) = true := by
        obtain ⟨j, hij, hj⟩ := hready i
        exact ⟨j - i, by rwa [Nat.add_sub_cancel' hij]⟩
      have hd : ready (i + Nat.find hex) = true := Nat.find_spec hex
      have hmin : ∀ k, k < Nat.find hex → ready (i + k) = false := by
        intro k hk
        have := Nat.find_min hex hk
        simpa using this
      have hz : s.remaining_erase_sector ≠ 0 := by omega
      obtain ⟨m, hm1, hm2, hstep⟩ := start_next_erase_ready s hz h0
      set s1 : FlashState :=
        { s with remaining_erase_sector := s.remaining_erase_sector - m,
                 next_erase_sector := s.next_erase_sector + m } with hs1
      obtain ⟨f, r, hf⟩ := ih s1 (i + Nat.find hex + 1)
        (by simp [hs1]; omega) (by simp [hs1]; omega) (by simp [hs1]; omega)
      refine ⟨Nat.find hex + (f + 1), (r.1, (s.next_erase_sector, m) :: r.2), ?_⟩
      rw [eraseLoop_skip ready last (Nat.find hex) i (f + 1) s hc hmin]
      conv_lhs => unfold eraseLoop
      simp only [hc, if_true, hd, hstep]
      rw [hf]
      cases r with | mk a b => simp [Option.elim]
    · refine ⟨0, (s, []), ?_⟩
      unfold eraseLoop
      simp [hc]


/-- A successful erase loop keeps the remaining-sector counter nonnegative. -/
lemma eraseLoop_some_nonneg (ready : Nat → Bool) (last : Int) :
    ∀ (fuel i : Nat) (s s' : FlashState) (us : List (Int × Int)),
      eraseLoop ready last i fuel s = some (s', us) →
      0 ≤ s.remaining_erase_sector → 0 ≤ s'.remaining_erase_sector := by
  intro fuel
  induction fuel with
  | zero =>
    intro i s s' us h h0
    unfold eraseLoop at h
    by_cases hc : s.next_erase_sector < last
    · simp [hc] at h
    · simp [hc] at h
      obtain ⟨h1, -⟩ := h
      subst h1
      exact h0
  | succ fuel ih =>
    intro i s s' us h h0
    unfold eraseLoop at h
    by_cases hc : s.next_erase_sector < last
    · simp only [hc, if_true] at h
      rcases hr : eraseLoop ready last (i + 1) fuel (start_next_erase (ready i) s).1
          with _ | ⟨s2, us2⟩
      · rw [hr] at h; simp at h
      · rw [hr] at h
        simp at h
        obtain ⟨h1, -⟩ := h
        subst h1
        exact ih (i + 1) _ s2 us2 hr (start_next_erase_nonneg (ready i) s h0)
    · simp [hc] at h
      obtain ⟨h1, -⟩ := h
      subst h1
      exact h0

/-- Full characterisation of a returning `handle_flash_data` call: the write
cursor advances by `len` and `remaining` shrinks by `len`, both modulo 2^32;
`last_error` becomes the SPI-write error exactly when the device write
failed, and is otherwise untouched; all other session fields are preserved;
the erase counters keep their sum. -/
lemma handle_flash_data_spec (ready : Nat → Bool) (writeFails : Bool)
    (fuel len : Nat) (s s' : FlashState)
    (h : handle_flash_data ready writeFails fuel len s = some s') :
    s'.next_write = (s.next_write + len) % U32_MOD ∧
    s'.remaining = u32sub s.remaining len ∧
    s'.last_error = (if writeFails then .ESP_FAILED_SPI_OP else s.last_error) ∧
    s'.in_flash_mode = s.in_flash_mode ∧
    s'.inflator = s.inflator ∧
    s'.remaining_compressed = s.remaining_compressed ∧
    s'.next_erase_sector + s'.remaining_erase_sector =
      s.next_erase_sector + s.remaining_erase_sector ∧
    (0 ≤ s.remaining_erase_sector → 0 ≤ s'.remaining_erase_sector) := by
  unfold handle_flash_data at h
  rcases hr : eraseLoop ready
      ((((s.next_write + len + (FLASH_SECTOR_SIZE - 1)) % U32_MOD) / FLASH_SECTOR_SIZE : Nat) : Int)
      0 fuel s with _ | ⟨s1, us⟩
  · simp only [hr] at h
    exact Option.noConfusion h
  · simp only [hr, Option.some.injEq] at h
    obtain ⟨b1, b2, b3, b4, b5, b6, b7, b8, b9⟩ := eraseLoop_some_spec _ _ fuel 0 s s1 us hr
    have bn := eraseLoop_some_nonneg _ _ fuel 0 s s1 us hr
    subst h
    cases writeFails with
    | false =>
      refine ⟨by simp [b2], by simp [b3], by simp [b4], by simp [b1], by simp [b5],
        by simp [b6], by simpa using b7, fun h0 => by simpa using bn h0⟩
    | true =>
      refine ⟨by simp [b2], by simp [b3], by simp, by simp [b1], by simp [b5],
        by simp [b6], by simpa using b7, fun h0 => by simpa using bn h0⟩


/-- C's truncated `%` vanishes exactly on multiples (either sign). -/
lemma tmod_block_eq_zero_iff (a : Int) :
    a.tmod (SECTORS_PER_BLOCK : Int) = 0 ↔ (SECTORS_PER_BLOCK : Int) ∣ a := by
  constructor
  · intro h
    have h2 : a = (SECTORS_PER_BLOCK : Int) * a.tdiv (SECTORS_PER_BLOCK : Int) +
        a.tmod (SECTORS_PER_BLOCK : Int) := (Int.tdiv_add_tmod a _).symm
    rw [h, add_zero] at h2
    exact ⟨a.tdiv (SECTORS_PER_BLOCK : Int), h2⟩
  · exact Int.tmod_eq_zero_of_dvd

/-- C5: an invocation of the erase scheduler that actually erases (units
remain, device ready) erases a block of `SECTORS_PER_BLOCK` sectors exactly
when at least `SECTORS_PER_BLOCK` units remain and the cursor is a multiple
of `SECTORS_PER_BLOCK`, and a single sector otherwise; both counters advance
by the erased count.  When no units remain or the device is not ready, the
call changes nothing. -/
theorem start_next_erase_spec (s : FlashState) :
    (start_next_erase false s = (s, none)) ∧
    (s.remaining_erase_sector = 0 → ∀ b, start_next_erase b s = (s, none)) ∧
    (s.remaining_erase_sector ≠ 0 →
      (((SECTORS_PER_BLOCK : Int) ≤ s.remaining_erase_sector ∧
          (SECTORS_PER_BLOCK : Int) ∣ s.next_erase_sector) →
        start_next_erase true s =
          ({ s with
              remaining_erase_sector :=
                s.remaining_erase_sector - (SECTORS_PER_BLOCK : Int),
              next_erase_sector :=
                s.next_erase_sector + (SECTORS_PER_BLOCK : Int) },
           some (s.next_erase_sector, (SECTORS_PER_BLOCK : Int)))) ∧
      (¬((SECTORS_PER_BLOCK : Int) ≤ s.remaining_erase_sector ∧
          (SECTORS_PER_BLOCK : Int) ∣ s.next_erase_sector) →
        start_next_erase true s =
          ({ s with
              remaining_erase_sector := s.remaining_erase_sector - 1,
              next_erase_sector := s.next_erase_sector + 1 },
           some (s.next_erase_sector, 1)))) := by
  refine ⟨start_next_erase_false s, fun h b => start_next_erase_zero b s h, fun hz => ⟨?_, ?_⟩⟩
  · intro hb
    unfold start_next_erase
    have hb' : (SECTORS_PER_BLOCK : Int) ≤ s.remaining_erase_sector ∧
        s.next_erase_sector.tmod (SECTORS_PER_BLOCK : Int) = 0 :=
      ⟨hb.1, (tmod_block_eq_zero_iff _).2 hb.2⟩
    simp [hz, hb']
  · intro hb
    unfold start_next_erase
    have hb' : ¬((SECTORS_PER_BLOCK : Int) ≤ s.remaining_erase_sector ∧
        s.next_erase_sector.tmod (SECTORS_PER_BLOCK : Int) = 0) := by
      intro hc
      exact hb ⟨hc.1, (tmod_block_eq_zero_iff _).1 hc.2⟩
    simp [hz, hb']

/-- C5 witness: at the state directly after `begin(10000, 0)` the scheduler,
invoked ready, has 3 sectors remaining at an aligned cursor but fewer than a
block, so it erases the single sector 0. -/
theorem start_next_erase_spec_witness :
    start_next_erase true (handle_flash_begin 10000 0 false initFS).1 =
      ({ (handle_flash_begin 10000 0 false initFS).1 with
          remaining_erase_sector := 2, next_erase_sector := 1 },
       some (0, 1)) :=
  ((start_next_erase_spec (handle_flash_begin 10000 0 false initFS).1).2.2
    (by decide)).2 (by decide)

/-- C1 counterexample: with the session active and 1 byte still remaining,
`handle_flash_end` returns the not-enough-data error but leaves
`in_flash_mode` set — the session does NOT close unconditionally. -/
theorem handle_flash_end_not_unconditional_close :
    (handle_flash_end { initFS with in_flash_mode := true, remaining := 1 }).2 =
      .ESP_NOT_ENOUGH_DATA ∧
    (handle_flash_end { initFS with in_flash_mode := true, remaining := 1 }).1.in_flash_mode
      = true := by
  constructor <;> rfl

/-- C1 (amended): `end` returns the not-in-flash-mode error iff the session
is inactive (for states whose stored `last_error` is never that code, which
the interface guarantees); when active with bytes remaining it returns the
not-enough-data error and leaves the session ACTIVE; when active with no
bytes remaining it clears `active` and returns the sticky `last_error`.  The
session ends inactive iff it was inactive or `remaining = 0`. -/
theorem handle_flash_end_spec (s : FlashState)
    (h : s.last_error ≠ .ESP_NOT_IN_FLASH_MODE) :
    ((handle_flash_end s).2 = .ESP_NOT_IN_FLASH_MODE ↔ s.in_flash_mode = false) ∧
    (s.in_flash_mode = true → 0 < s.remaining →
      handle_flash_end s = (s, .ESP_NOT_ENOUGH_DATA)) ∧
    (s.in_flash_mode = true → s.remaining = 0 →
      handle_flash_end s = ({ s with in_flash_mode := false }, s.last_error)) ∧
    ((handle_flash_end s).1.in_flash_mode = false ↔
      (s.in_flash_mode = false ∨ s.remaining = 0)) := by
  unfold handle_flash_end
  by_cases hm : s.in_flash_mode = false
  · simp [hm]
  · have hm' : s.in_flash_mode = true := by simpa using hm
    by_cases hrem : 0 < s.remaining
    · have hrem' : s.remaining ≠ 0 := by omega
      simp [hm', hrem, hrem']
    · have hrem' : s.remaining = 0 := by omega
      simp [hm', hrem', h]

/-- A concrete completed-session state: active, all declared bytes written. -/
def endWitState : FlashState :=
  { initFS with
    in_flash_mode := true
    next_write := 4096
    next_erase_sector := 1
    remaining := 0 }

/-- C1 witness: the amended end specification instantiated at a concrete
completed session state. -/
theorem handle_flash_end_spec_witness :
    ((handle_flash_end endWitState).2 = .ESP_NOT_IN_FLASH_MODE ↔
      endWitState.in_flash_mode = false) ∧
    (endWitState.in_flash_mode = true → 0 < endWitState.remaining →
      handle_flash_end endWitState = (endWitState, .ESP_NOT_ENOUGH_DATA)) ∧
    (endWitState.in_flash_mode = true → endWitState.remaining = 0 →
      handle_flash_end endWitState =
        ({ endWitState with in_flash_mode := false }, endWitState.last_error)) ∧
    ((handle_flash_end endWitState).1.in_flash_mode = false ↔
      (endWitState.in_flash_mode = false ∨ endWitState.remaining = 0)) :=
  handle_flash_end_spec endWitState (by decide)

/-- C2 counterexample: `fs.remaining_erase_sector = (total_size +
FLASH_SECTOR_SIZE - 1) / FLASH_SECTOR_SIZE` is computed in `uint32_t`, so at
`total_size = 2^32 - 1` the sum wraps and the stored sector count is 0
instead of the mathematical `ceil(total_size / sector_size) = 1048576`. -/
theorem handle_flash_begin_ceil_wraps :
    (handle_flash_begin 4294967295 0 false initFS).1.remaining_erase_sector = 0 ∧
    ((4294967295 + FLASH_SECTOR_SIZE - 1) / FLASH_SECTOR_SIZE : Nat) = 1048576 ∧
    (handle_flash_begin 4294967295 0 false initFS).1.remaining_erase_sector ≠
      (((4294967295 + FLASH_SECTOR_SIZE - 1) / FLASH_SECTOR_SIZE : Nat) : Int) := by
  refine ⟨by decide, by decide, by decide⟩

/-- C2 (amended): as long as `total_size + FLASH_SECTOR_SIZE - 1` does not
overflow `uint32_t`, `begin(total_size, offset)` sets exactly the fields the
claim lists — `write_cursor = offset`, `erase_cursor = offset / sector_size`
(floor), `bytes_remaining = total_size`, `erase_units_remaining =
ceil(total_size / sector_size)` (written `(total_size + sector_size - 1) /
sector_size`), `last_error = OK`, session active — and this holds whether or
not the SPI unlock fails; an unlock failure only changes the returned error
code to the distinct unlock-failure code. -/
theorem handle_flash_begin_spec (t o : Nat) (u : Bool) (s : FlashState)
    (ht : t + FLASH_SECTOR_SIZE ≤ U32_MOD) :
    (handle_flash_begin t o u s).1.in_flash_mode = true ∧
    (handle_flash_begin t o u s).1.next_write = o ∧
    (handle_flash_begin t o u s).1.next_erase_sector =
      ((o / FLASH_SECTOR_SIZE : Nat) : Int) ∧
    (handle_flash_begin t o u s).1.remaining = t ∧
    (handle_flash_begin t o u s).1.remaining_erase_sector =
      (((t + FLASH_SECTOR_SIZE - 1) / FLASH_SECTOR_SIZE : Nat) : Int) ∧
    (handle_flash_begin t o u s).1.last_error = .ESP_OK ∧
    (handle_flash_begin t o u s).2 =
      (if u then .ESP_FAILED_SPI_UNLOCK else .ESP_OK) := by
  have hlt : t + FLASH_SECTOR_SIZE - 1 < U32_MOD := by
    unfold FLASH_SECTOR_SIZE at ht
    unfold U32_MOD at ht
    unfold FLASH_SECTOR_SIZE U32_MOD
    omega
  refine ⟨rfl, rfl, rfl, rfl, ?_, rfl, rfl⟩
  show ((((t + FLASH_SECTOR_SIZE - 1) % U32_MOD) / FLASH_SECTOR_SIZE : Nat) : Int) = _
  rw [Nat.mod_eq_of_lt hlt]

/-- C2 witness: the amended begin specification instantiated at
`begin(10000, 8192)` with a failing SPI unlock: all fields are set and the
session is active even though the distinct unlock error is returned. -/
theorem handle_flash_begin_spec_witness :
    (handle_flash_begin 10000 8192 true initFS).1.in_flash_mode = true ∧
    (handle_flash_begin 10000 8192 true initFS).1.next_write = 8192 ∧
    (handle_flash_begin 10000 8192 true initFS).1.next_erase_sector =
      ((8192 / FLASH_SECTOR_SIZE : Nat) : Int) ∧
    (handle_flash_begin 10000 8192 true initFS).1.remaining = 10000 ∧
    (handle_flash_begin 10000 8192 true initFS).1.remaining_erase_sector =
      (((10000 + FLASH_SECTOR_SIZE - 1) / FLASH_SECTOR_SIZE : Nat) : Int) ∧
    (handle_flash_begin 10000 8192 true initFS).1.last_error = .ESP_OK ∧
    (handle_flash_begin 10000 8192 true initFS).2 =
      (if true then .ESP_FAILED_SPI_UNLOCK else .ESP_OK) :=
  handle_flash_begin_spec 10000 8192 true initFS (by decide)

/-- C3: for an active session, a raw data chunk of length `len` that returns
advances `write_cursor` by exactly `len` and decreases `bytes_remaining` by
exactly `len` (both in `uint32_t` arithmetic, and exactly as plain integers
whenever no wraparound occurs), regardless of whether the device write
failed; a failed write only records the sticky SPI-write error without
rolling back the cursors or short-circuiting, any subsequent chunk that
returns still advances in the same way, and once `remaining` reaches 0 the
session still closes on `end` with the sticky error. -/
theorem handle_flash_data_advances (ready : Nat → Bool) (writeFails : Bool)
    (fuel len : Nat) (s s' : FlashState)
    (hactive : s.in_flash_mode = true)
    (h : handle_flash_data ready writeFails fuel len s = some s') :
    s'.next_write = (s.next_write + len) % U32_MOD ∧
    s'.remaining = u32sub s.remaining len ∧
    (s.next_write + len < U32_MOD → s'.next_write = s.next_write + len) ∧
    (len ≤ s.remaining → s.remaining < U32_MOD → len < U32_MOD →
      s'.remaining = s.remaining - len) ∧
    (writeFails = true → s'.last_error = .ESP_FAILED_SPI_OP) ∧
    (writeFails = false → s'.last_error = s.last_error) ∧
    s'.in_flash_mode = true ∧
    (∀ (ready2 : Nat → Bool) (wf2 : Bool) (fuel2 len2 : Nat) (s2 : FlashState),
      handle_flash_data ready2 wf2 fuel2 len2 s' = some s2 →
      s2.next_write = (s'.next_write + len2) % U32_MOD ∧
      s2.remaining = u32sub s'.remaining len2) ∧
    (s'.remaining = 0 →
      handle_flash_end s' = ({ s' with in_flash_mode := false }, s'.last_error)) := by
  obtain ⟨a1, a2, a3, a4, a5, a6, a7, a8⟩ :=
    handle_flash_data_spec ready writeFails fuel len s s' h
  have hflash : s'.in_flash_mode = true := by rw [a4, hactive]
  refine ⟨a1, a2, ?_, ?_, ?_, ?_, hflash, ?_, ?_⟩
  · intro hlt
    rw [a1, Nat.mod_eq_of_lt hlt]
  · intro hle hrem hlen
    rw [a2]
    unfold u32sub
    rw [Nat.mod_eq_of_lt hlen]
    have h1 : s.remaining + (U32_MOD - len) = U32_MOD + (s.remaining - len) := by omega
    rw [h1, Nat.add_mod_left, Nat.mod_eq_of_lt (by omega)]
  · intro hwf
    rw [a3, hwf]
    rfl
  · intro hwf
    rw [a3, hwf]
    rfl
  · intro ready2 wf2 fuel2 len2 s2 h2
    obtain ⟨b1, b2, -⟩ := handle_flash_data_spec ready2 wf2 fuel2 len2 s' s2 h2
    exact ⟨b1, b2⟩
  · intro hz
    unfold handle_flash_end
    simp [hflash, hz]

/-- C3 witness: after `begin(10000, 0)`, a 5000-byte chunk with an injected
SPI write failure (erase-loop fuel 3, device always ready) advances the
cursors and records the sticky SPI error. -/
theorem handle_flash_data_advances_witness :
    ((handle_flash_data (fun _ => true) true 3 5000
        (handle_flash_begin 10000 0 false initFS).1).getD initFS).next_write = 5000 ∧
    ((handle_flash_data (fun _ => true) true 3 5000
        (handle_flash_begin 10000 0 false initFS).1).getD initFS).remaining = 5000 ∧
    ((handle_flash_data (fun _ => true) true 3 5000
        (handle_flash_begin 10000 0 false initFS).1).getD initFS).last_error =
      .ESP_FAILED_SPI_OP := by
  obtain ⟨a1, a2, -, -, a5, -⟩ := handle_flash_data_advances (fun _ => true) true 3 5000
    (handle_flash_begin 10000 0 false initFS).1
    ((handle_flash_data (fun _ => true) true 3 5000
        (handle_flash_begin 10000 0 false initFS).1).getD initFS) rfl rfl
  refine ⟨?_, ?_, a5 rfl⟩
  · rw [a1]
    decide
  · rw [a2]
    decide
/-- Floor division is superadditive. -/
lemma div_add_div_le (a b c : Nat) (hc : 0 < c) : a / c + b / c ≤ (a + b) / c := by
  rw [Nat.le_div_iff_mul_le hc]
  have h1 := Nat.div_mul_le_self a c
  have h2 := Nat.div_mul_le_self b c
  calc (a / c + b / c) * c = a / c * c + b / c * c := by ring
    _ ≤ a + b := by omega

/-- Any sequence of erase-scheduler invocations erases only units that lie
between the initial cursor and the initial cursor plus the initial remaining
count, each unit is nonempty, and the units are pairwise ordered with no
overlap (each ends at or before the next starts). -/
lemma eraseRun_spec : ∀ (bs : List Bool) (s : FlashState),
    0 ≤ s.remaining_erase_sector →
    (∀ p ∈ (eraseRun bs s).2, 1 ≤ p.2 ∧ s.next_erase_sector ≤ p.1 ∧
      p.1 + p.2 ≤ s.next_erase_sector + s.remaining_erase_sector) ∧
    (eraseRun bs s).2.Pairwise (fun p q => p.1 + p.2 ≤ q.1) := by
  intro bs
  induction bs with
  | nil =>
    intro s h0
    constructor
    · intro p hp
      simp [eraseRun] at hp
    · simp [eraseRun]
  | cons b bs ih =>
    intro s h0
    rcases start_next_erase_cases b s h0 with hc | ⟨n, hn1, hn2, hc⟩
    · have hrun : eraseRun (b :: bs) s = eraseRun bs s := by
        conv_lhs => unfold eraseRun
        rw [hc]
        rfl
      rw [hrun]
      exact ih s h0
    · have hrun : eraseRun (b :: bs) s =
          ((eraseRun bs { s with
              remaining_erase_sector := s.remaining_erase_sector - n,
              next_erase_sector := s.next_erase_sector + n }).1,
           (s.next_erase_sector, n) ::
            (eraseRun bs { s with
              remaining_erase_sector := s.remaining_erase_sector - n,
              next_erase_sector := s.next_erase_sector + n }).2) := by
        conv_lhs => unfold eraseRun
        rw [hc]
        rfl
      rw [hrun]
      obtain ⟨hall, hpw⟩ := ih { s with
          remaining_erase_sector := s.remaining_erase_sector - n,
          next_erase_sector := s.next_erase_sector + n } (by simp; omega)
      constructor
      · intro p hp
        rcases List.mem_cons.1 hp with hp | hp
        · subst hp
          exact ⟨hn1, le_refl _, by omega⟩
        · obtain ⟨q1, q2, q3⟩ := hall p hp
          simp at q2 q3
          exact ⟨q1, by omega, by omega⟩
      · refine List.Pairwise.cons ?_ hpw
        intro q hq
        obtain ⟨q1, q2, q3⟩ := hall q hq
        simp at q2
        omega

/-- C6: within one session started by `begin(total_size, offset)`, over any
sequence of erase-scheduler invocations, every erased sector index lies
below `ceil((offset + total_size) / sector_size)` (and at or above
`offset / sector_size`), and the erased units are pairwise disjoint, so no
sector index is ever erased twice. -/
theorem erase_scheduler_bounded (t o : Nat) (u : Bool) (s : FlashState)
    (bs : List Bool) :
    (∀ p ∈ (eraseRun bs (handle_flash_begin t o u s).1).2, ∀ k : Int,
      p.1 ≤ k → k < p.1 + p.2 →
      ((o / FLASH_SECTOR_SIZE : Nat) : Int) ≤ k ∧
      k < (((o + t + FLASH_SECTOR_SIZE - 1) / FLASH_SECTOR_SIZE : Nat) : Int)) ∧
    (eraseRun bs (handle_flash_begin t o u s).1).2.Pairwise
      (fun p q => p.1 + p.2 ≤ q.1) := by
  have h0 : (0 : Int) ≤ (handle_flash_begin t o u s).1.remaining_erase_sector := by
    show (0 : Int) ≤ ((((t + FLASH_SECTOR_SIZE - 1) % U32_MOD) / FLASH_SECTOR_SIZE : Nat) : Int)
    exact Int.ofNat_nonneg _
  obtain ⟨hall, hpw⟩ := eraseRun_spec bs (handle_flash_begin t o u s).1 h0
  refine ⟨?_, hpw⟩
  intro p hp k hk1 hk2
  obtain ⟨q1, q2, q3⟩ := hall p hp
  have hnext : (handle_flash_begin t o u s).1.next_erase_sector =
      ((o / FLASH_SECTOR_SIZE : Nat) : Int) := rfl
  have hrem : (handle_flash_begin t o u s).1.remaining_erase_sector =
      ((((t + FLASH_SECTOR_SIZE - 1) % U32_MOD) / FLASH_SECTOR_SIZE : Nat) : Int) := rfl
  rw [hnext] at q2
  rw [hnext, hrem] at q3
  refine ⟨le_trans q2 hk1, lt_of_lt_of_le hk2 (le_trans q3 ?_)⟩
  have hb1 : ((t + FLASH_SECTOR_SIZE - 1) % U32_MOD) / FLASH_SECTOR_SIZE ≤
      (t + FLASH_SECTOR_SIZE - 1) / FLASH_SECTOR_SIZE :=
    Nat.div_le_div_right (Nat.mod_le _ _)
  have hb2 : o / FLASH_SECTOR_SIZE + (t + FLASH_SECTOR_SIZE - 1) / FLASH_SECTOR_SIZE ≤
      (o + (t + FLASH_SECTOR_SIZE - 1)) / FLASH_SECTOR_SIZE :=
    div_add_div_le o (t + FLASH_SECTOR_SIZE - 1) FLASH_SECTOR_SIZE (by norm_num [FLASH_SECTOR_SIZE])
  have hb3 : o + (t + FLASH_SECTOR_SIZE - 1) = o + t + FLASH_SECTOR_SIZE - 1 := by
    have : 1 ≤ FLASH_SECTOR_SIZE := by norm_num [FLASH_SECTOR_SIZE]
    omega
  rw [hb3] at hb2
  have := le_trans (Nat.add_le_add_left hb1 (o / FLASH_SECTOR_SIZE)) hb2
  exact_mod_cast this

/-- The decode/flush loop preserves the active flag and never clears a sticky
error. -/
lemma deflLoop_preserves : ∀ (steps : List DeflStep) (len : Nat) (status : Int)
    (st st1 : StubState) (status1 : Int),
    deflLoop steps len status st = some (st1, status1) →
    st1.fs.in_flash_mode = st.fs.in_flash_mode ∧
    (st.fs.last_error ≠ .ESP_OK → st1.fs.last_error ≠ .ESP_OK) := by
  intro steps
  induction steps with
  | nil =>
    intro len status st st1 status1 h
    unfold deflLoop at h
    by_cases hcond : 0 < len ∧ 0 < st.fs.remaining ∧ TINFL_STATUS_DONE < status
    · simp [hcond] at h
    · simp [hcond] at h
      obtain ⟨h1, -⟩ := h
      subst h1
      exact ⟨rfl, fun hx => hx⟩
  | cons step rest ih =>
    intro len status st st1 status1 h
    unfold deflLoop at h
    by_cases hcond : 0 < len ∧ 0 < st.fs.remaining ∧ TINFL_STATUS_DONE < status
    · simp only [hcond, if_true] at h
      have hE := start_next_erase_fields step.eready st.fs
      by_cases hflush : step.status ≤ TINFL_STATUS_DONE ∨
          st.fill + min step.produced (OUT_BUF_SIZE - st.fill) = OUT_BUF_SIZE
      · simp only [hflush, if_true] at h
        rcases hd : handle_flash_data step.flushReady step.flushFails step.flushFuel
            (st.fill + min step.produced (OUT_BUF_SIZE - st.fill))
            { (start_next_erase step.eready st.fs).1 with
              remaining_compressed :=
                u32sub (start_next_erase step.eready st.fs).1.remaining_compressed
                  (min step.consumed len),
              inflator := (start_next_erase step.eready st.fs).1.inflator + 1 }
            with _ | fs3
        · rw [hd] at h
          exact Option.noConfusion h
        · rw [hd] at h
          obtain ⟨c1, c2, c3, c4, -⟩ := handle_flash_data_spec _ _ _ _ _ _ hd
          obtain ⟨i1, i2⟩ := ih _ _ _ _ _ h
          constructor
          · rw [i1]
            show fs3.in_flash_mode = st.fs.in_flash_mode
            rw [c4]
            exact hE.1
          · intro hne
            refine i2 ?_
            show fs3.last_error ≠ .ESP_OK
            rw [c3]
            split
            · simp
            · show (start_next_erase step.eready st.fs).1.last_error ≠ .ESP_OK
              rw [hE.2.2.2.1]
              exact hne
      · simp only [hflush, if_false] at h
        obtain ⟨i1, i2⟩ := ih _ _ _ _ _ h
        constructor
        · rw [i1]
          exact hE.1
        · intro hne
          refine i2 ?_
          show (start_next_erase step.eready st.fs).1.last_error ≠ .ESP_OK
          rw [hE.2.2.2.1]
          exact hne
    · simp [hcond] at h
      obtain ⟨h1, -⟩ := h
      subst h1
      exact ⟨rfl, fun hx => hx⟩

/-- The post-loop error resolution never writes `ESP_OK`. -/
lemma resolve_deflate_errors_sticky (status : Int) (fs : FlashState)
    (h : fs.last_error ≠ .ESP_OK) :
    (resolve_deflate_errors status fs).last_error ≠ .ESP_OK := by
  unfold resolve_deflate_errors
  repeat' split
  all_goals simp_all

/-- C9: `last_error` is sticky.  With a non-OK error recorded, no erase
invocation, raw data call, deflated data call, `end` call or query ever sets
it back to OK; conversely any fresh `begin` or `begin_deflated` resets it to
OK. -/
theorem last_error_sticky (st : StubState) (h : st.fs.last_error ≠ .ESP_OK) :
    (∀ b, (start_next_erase b st.fs).1.last_error ≠ .ESP_OK) ∧
    (∀ (ready : Nat → Bool) (wf : Bool) (fuel len : Nat) (s' : FlashState),
      handle_flash_data ready wf fuel len st.fs = some s' →
      s'.last_error ≠ .ESP_OK) ∧
    (∀ (steps : List DeflStep) (len : Nat) (st' : StubState),
      handle_flash_deflated_data steps len st = some st' →
      st'.fs.last_error ≠ .ESP_OK) ∧
    ((handle_flash_end st.fs).1.last_error = st.fs.last_error) ∧
    (get_flash_error st.fs = st.fs.last_error) ∧
    (is_in_flash_mode st.fs = st.fs.in_flash_mode) ∧
    (∀ (t o : Nat) (u : Bool), (handle_flash_begin t o u st.fs).1.last_error = .ESP_OK) ∧
    (∀ (uc c o : Nat) (u : Bool),
      (handle_flash_deflated_begin uc c o u st.fs).1.last_error = .ESP_OK) := by
  refine ⟨?_, ?_, ?_, ?_, rfl, rfl, fun t o u => rfl, fun uc c o u => rfl⟩
  · intro b
    rw [(start_next_erase_fields b st.fs).2.2.2.1]
    exact h
  · intro ready wf fuel len s' hcall
    obtain ⟨-, -, c3, -⟩ := handle_flash_data_spec ready wf fuel len st.fs s' hcall
    rw [c3]
    split
    · simp
    · exact h
  · intro steps len st' hcall
    unfold handle_flash_deflated_data at hcall
    rcases hl : deflLoop steps len TINFL_STATUS_NEEDS_MORE_INPUT st with _ | ⟨st1, status1⟩
    · rw [hl] at hcall
      exact Option.noConfusion hcall
    · rw [hl] at hcall
      simp only [Option.some.injEq] at hcall
      subst hcall
      show (resolve_deflate_errors status1 st1.fs).last_error ≠ .ESP_OK
      exact resolve_deflate_errors_sticky status1 st1.fs
        ((deflLoop_preserves steps len _ st st1 status1 hl).2 h)
  · unfold handle_flash_end
    split
    · rfl
    · split
      · rfl
      · rfl

/-- A concrete mid-session state carrying a sticky SPI-write error. -/
def stickyWitState : StubState :=
  ⟨{ initFS with
      in_flash_mode := true
      remaining := 4096
      remaining_erase_sector := 1
      last_error := .ESP_FAILED_SPI_OP }, 0⟩

/-- One decoder oracle step that consumes the whole chunk, produces 4 bytes
and still needs more input. -/
def stickyWitStep : DeflStep := ⟨true, 5, 4, 1, fun _ => true, false, 2⟩

/-- C9 witness: the stickiness theorem instantiated at a concrete errored
state, with a concrete erase invocation, raw data call, deflated data call,
end call and fresh begin. -/
theorem last_error_sticky_witness :
    (start_next_erase true stickyWitState.fs).1.last_error ≠ .ESP_OK ∧
    ((handle_flash_data (fun _ => true) false 2 4096 stickyWitState.fs).getD
      initFS).last_error ≠ .ESP_OK ∧
    ((handle_flash_deflated_data [stickyWitStep] 5 stickyWitState).getD
      ⟨initFS, 0⟩).fs.last_error ≠ .ESP_OK ∧
    (handle_flash_end stickyWitState.fs).1.last_error = stickyWitState.fs.last_error ∧
    (handle_flash_begin 64 0 false stickyWitState.fs).1.last_error = .ESP_OK ∧
    (handle_flash_deflated_begin 64 32 0 false stickyWitState.fs).1.last_error = .ESP_OK := by
  have hthm := last_error_sticky stickyWitState (by decide)
  refine ⟨hthm.1 true, ?_, ?_, hthm.2.2.2.1, hthm.2.2.2.2.2.2.1 64 0 false,
    hthm.2.2.2.2.2.2.2 64 32 0 false⟩
  · exact hthm.2.1 (fun _ => true) false 2 4096 _ rfl
  · exact hthm.2.2.1 [stickyWitStep] 5 _ rfl

/-- C4: after every `handle_flash_deflated_data` call (with `status` the
final decoder status of that call), the deferred error resolution runs anew:
decoder error with bytes still expected records the decode error; stream
complete with bytes still expected records not-enough-data; stream not
complete with no bytes expected records too-much-data.  The call itself
returns no error code (its model returns only the new state); the recorded
error is what the status query reports. -/
theorem deflated_error_resolution (steps : List DeflStep) (len : Nat)
    (st st1 : StubState) (status : Int) (st2 : StubState)
    (hloop : deflLoop steps len TINFL_STATUS_NEEDS_MORE_INPUT st = some (st1, status))
    (hcall : handle_flash_deflated_data steps len st = some st2) :
    (status < TINFL_STATUS_DONE → 0 < st2.fs.remaining →
      st2.fs.last_error = .ESP_INFLATE_ERROR ∧
      get_flash_error st2.fs = .ESP_INFLATE_ERROR) ∧
    (status = TINFL_STATUS_DONE → 0 < st2.fs.remaining →
      st2.fs.last_error = .ESP_NOT_ENOUGH_DATA ∧
      get_flash_error st2.fs = .ESP_NOT_ENOUGH_DATA) ∧
    (status ≠ TINFL_STATUS_DONE → st2.fs.remaining = 0 →
      st2.fs.last_error = .ESP_TOO_MUCH_DATA ∧
      get_flash_error st2.fs = .ESP_TOO_MUCH_DATA) := by
  unfold handle_flash_deflated_data at hcall
  rw [hloop] at hcall
  simp only [Option.some.injEq] at hcall
  subst hcall
  have hrem : (resolve_deflate_errors status st1.fs).remaining = st1.fs.remaining := rfl
  refine ⟨?_, ?_, ?_⟩
  · intro hs hr
    rw [hrem] at hr
    have hns : status ≠ TINFL_STATUS_DONE := by
      unfold TINFL_STATUS_DONE at hs ⊢
      omega
    have hnr : ¬ st1.fs.remaining = 0 := by omega
    constructor
    · show (resolve_deflate_errors status st1.fs).last_error = _
      unfold resolve_deflate_errors
      simp [hs, hns, hnr, hr]
    · show get_flash_error (resolve_deflate_errors status st1.fs) = _
      unfold get_flash_error resolve_deflate_errors
      simp [hs, hns, hnr, hr]
  · intro hs hr
    rw [hrem] at hr
    have hnr : ¬ st1.fs.remaining = 0 := by omega
    constructor
    · show (resolve_deflate_errors status st1.fs).last_error = _
      unfold resolve_deflate_errors
      simp [hs, hnr, hr]
    · show get_flash_error (resolve_deflate_errors status st1.fs) = _
      unfold get_flash_error resolve_deflate_errors
      simp [hs, hnr, hr]
  · intro hs hr
    rw [hrem] at hr
    constructor
    · show (resolve_deflate_errors status st1.fs).last_error = _
      unfold resolve_deflate_errors
      simp [hs, hr]
    · show get_flash_error (resolve_deflate_errors status st1.fs) = _
      unfold get_flash_error resolve_deflate_errors
      simp [hs, hr]

/-- The stub state directly after `begin_deflated(10, 5, 0)` on a fresh
stub. -/
def deflWitStart : StubState := ⟨(handle_flash_deflated_begin 10 5 0 false initFS).1, 0⟩

/-- A decoder oracle step: consumes the whole 5-byte chunk, produces 4 bytes
and reports stream-complete (status 0). -/
def deflWitStep : DeflStep := ⟨true, 5, 4, 0, fun _ => true, false, 2⟩

/-- The session state after the decode loop of that call: sector 0 erased,
4 decompressed bytes flushed, 6 declared bytes never produced. -/
def deflWitMid : StubState :=
  ⟨{ in_flash_mode := true
     next_write := 4
     next_erase_sector := 1
     remaining := 6
     remaining_erase_sector := 0
     last_error := .ESP_OK
     inflator := 1
     remaining_compressed := 0 }, 0⟩

/-- The same state after the deferred error resolution recorded
not-enough-data. -/
def deflWitEnd : StubState :=
  ⟨{ in_flash_mode := true
     next_write := 4
     next_erase_sector := 1
     remaining := 6
     remaining_erase_sector := 0
     last_error := .ESP_NOT_ENOUGH_DATA
     inflator := 1
     remaining_compressed := 0 }, 0⟩

/-- C4 witness: a deflated chunk whose decoder finishes early (status 0 with
6 declared bytes still remaining) leaves the sticky not-enough-data error in
the session, visible through the status query. -/
theorem deflated_error_resolution_witness :
    deflWitEnd.fs.last_error = .ESP_NOT_ENOUGH_DATA ∧
    get_flash_error deflWitEnd.fs = .ESP_NOT_ENOUGH_DATA :=
  (deflated_error_resolution [deflWitStep] 5 deflWitStart deflWitMid 0 deflWitEnd
    (by decide) (by decide)).2.1 rfl (by decide)

/-- The session-level view of `handle_flash_deflated_begin`: the function
only touches the `fs` struct; the function-level statics `out_buf` /
`next_out` of `handle_flash_deflated_data` survive untouched, so the fill
cursor is carried over unchanged. -/
def handle_flash_deflated_begin_st (uncompressed_size compressed_size offset : Nat)
    (unlockFails : Bool) (st : StubState) : StubState × EspError :=
  let r := handle_flash_deflated_begin uncompressed_size compressed_size offset
    unlockFails st.fs
  (⟨r.1, st.fill⟩, r.2)

/-- C8 counterexample: an aborted deflated session leaves 5 undrained bytes
in the output buffer (`next_out - out_buf = 5`); a fresh
`begin_deflated(20, 20, 0)` does NOT reset that fill cursor — it is still 5,
not 0, so stale bytes can be flushed into the new session. -/
theorem deflated_begin_keeps_stale_fill :
    (handle_flash_deflated_data [⟨false, 3, 5, 1, fun _ => true, false, 0⟩] 3
        ⟨(handle_flash_deflated_begin 10 10 0 false initFS).1, 0⟩).map
      (fun st => (handle_flash_deflated_begin_st 20 20 0 false st).1.fill) =
      some 5 ∧ (5 : Nat) ≠ 0 := by
  constructor
  · rfl
  · decide

/-- C8 (amended): `begin_deflated(uncompressed_size, compressed_size,
offset)` resets the decoder state, sets `compressed_bytes_remaining =
compressed_size` and delegates all size/offset bookkeeping to plain `begin`
with the uncompressed size; the output buffer's fill cursor, however, is NOT
reset: it keeps whatever value the previous (possibly aborted) session left
in it. -/
theorem handle_flash_deflated_begin_spec (uc c o : Nat) (u : Bool) (st : StubState) :
    (handle_flash_deflated_begin_st uc c o u st).1.fs =
      { (handle_flash_begin uc o u st.fs).1 with
          inflator := 0, remaining_compressed := c } ∧
    (handle_flash_deflated_begin_st uc c o u st).2 =
      (handle_flash_begin uc o u st.fs).2 ∧
    (handle_flash_deflated_begin_st uc c o u st).1.fs.remaining_compressed = c ∧
    (handle_flash_deflated_begin_st uc c o u st).1.fs.inflator = 0 ∧
    (handle_flash_deflated_begin_st uc c o u st).1.fill = st.fill :=
  ⟨rfl, rfl, rfl, rfl, rfl⟩

/-- `uint32_t` subtraction inverts addition modulo 2^32. -/
lemma u32sub_add_mod (a b : Nat) : (u32sub a b + b) % U32_MOD = a % U32_MOD := by
  unfold u32sub U32_MOD
  omega

/-- Across any sequence of returning raw data calls, the active flag is
preserved and `remaining` accounts for the total delivered bytes modulo
2^32. -/
lemma runData_spec : ∀ (cs : List DataCall) (s s' : FlashState),
    runData cs s = some s' →
    s'.in_flash_mode = s.in_flash_mode ∧
    (s'.remaining + (cs.map DataCall.len).sum) % U32_MOD = s.remaining % U32_MOD := by
  intro cs
  induction cs with
  | nil =>
    intro s s' h
    unfold runData at h
    simp only [Option.some.injEq] at h
    subst h
    simp
  | cons c cs ih =>
    intro s s' h
    unfold runData at h
    rcases hd : handle_flash_data c.ready c.writeFails c.fuel c.len s with _ | s1
    · rw [hd] at h
      exact Option.noConfusion h
    · rw [hd] at h
      obtain ⟨i1, i2⟩ := ih s1 s' h
      obtain ⟨b1, b2, b3, b4, -⟩ := handle_flash_data_spec _ _ _ _ _ _ hd
      refine ⟨i1.trans b4, ?_⟩
      have hkey := u32sub_add_mod s.remaining c.len
      rw [b2] at i2
      show (s'.remaining + (c.len + (cs.map DataCall.len).sum)) % U32_MOD =
        s.remaining % U32_MOD
      unfold U32_MOD at i2 hkey ⊢
      omega

/-- C10 counterexample: `remaining` is decremented modulo 2^32, so a session
declared with 4096 bytes that receives 2^32 + 4096 bytes (4096, then
2^32 - 4096, then 4096 — strictly more than declared) ends with
`remaining = 0`, and `end()` succeeds with ESP_OK instead of returning the
not-enough-data error the claim predicts for every over-delivery. -/
theorem remaining_wrap_reaches_zero :
    (runData [⟨fun _ => true, false, 1, 4096⟩, ⟨fun _ => true, false, 0, 4294963200⟩,
        ⟨fun _ => true, false, 0, 4096⟩] (handle_flash_begin 4096 0 false initFS).1).map
      (fun s => (s.remaining, (handle_flash_end s).2, (handle_flash_end s).1.in_flash_mode)) =
      some (0, .ESP_OK, false) ∧
    4096 < 4096 + 4294963200 + 4096 := by
  constructor
  · rfl
  · decide

/-- C10 (amended): over a session begun as `begin(total_size, offset)` with
`total_size < 2^32`, after any returning sequence of data calls,
`remaining` equals `total_size` minus the delivered sum modulo 2^32; in
particular when the delivered sum exceeds `total_size` by anything other
than an exact multiple of 2^32, `remaining` is non-zero and `end()` returns
the not-enough-data error, leaving the session active. -/
theorem remaining_wraps_not_saturates (t o : Nat) (u : Bool) (s : FlashState)
    (cs : List DataCall) (s' : FlashState)
    (ht : t < U32_MOD)
    (hrun : runData cs (handle_flash_begin t o u s).1 = some s')
    (hover : t < (cs.map DataCall.len).sum)
    (hmod : ¬ (U32_MOD ∣ ((cs.map DataCall.len).sum - t))) :
    (s'.remaining + (cs.map DataCall.len).sum) % U32_MOD = t ∧
    s'.remaining ≠ 0 ∧
    handle_flash_end s' = (s', .ESP_NOT_ENOUGH_DATA) := by
  obtain ⟨h1, h2⟩ := runData_spec cs (handle_flash_begin t o u s).1 s' hrun
  have hbrem : (handle_flash_begin t o u s).1.remaining = t := rfl
  have hbmode : (handle_flash_begin t o u s).1.in_flash_mode = true := rfl
  rw [hbrem, Nat.mod_eq_of_lt ht] at h2
  have hnz : s'.remaining ≠ 0 := by
    intro hz
    rw [hz, Nat.zero_add] at h2
    refine hmod ?_
    unfold U32_MOD at h2 ⊢
    omega
  refine ⟨h2, hnz, ?_⟩
  have hmode : s'.in_flash_mode = true := h1.trans hbmode
  unfold handle_flash_end
  simp [hmode, Nat.pos_of_ne_zero hnz]

/-- C10 witness: `begin(4, 0)` followed by one 5-byte chunk leaves
`remaining = 2^32 - 1` (non-zero), and `end()` reports not-enough-data. -/
theorem remaining_wraps_not_saturates_witness :
    ((runData [⟨fun _ => true, false, 1, 5⟩]
        (handle_flash_begin 4 0 false initFS).1).getD initFS).remaining ≠ 0 ∧
    handle_flash_end ((runData [⟨fun _ => true, false, 1, 5⟩]
        (handle_flash_begin 4 0 false initFS).1).getD initFS) =
      ((runData [⟨fun _ => true, false, 1, 5⟩]
        (handle_flash_begin 4 0 false initFS).1).getD initFS,
       .ESP_NOT_ENOUGH_DATA) := by
  have h := remaining_wraps_not_saturates 4 0 false initFS
    [⟨fun _ => true, false, 1, 5⟩]
    ((runData [⟨fun _ => true, false, 1, 5⟩]
        (handle_flash_begin 4 0 false initFS).1).getD initFS)
    (by decide) rfl (by decide) (by decide)
  exact ⟨h.2.1, h.2.2⟩

end FlasherStub

namespace FlasherStub

/-- Once the erase budget is exhausted with the cursor still short of the
target sector, the catch-up loop makes no progress: it fails for every
fuel, i.e. the C `while` loop never exits. -/
lemma eraseLoop_stuck (ready : Nat → Bool) (last : Int) :
    ∀ (fuel i : Nat) (s : FlashState), s.next_erase_sector < last →
      s.remaining_erase_sector = 0 →
      eraseLoop ready last i fuel s = none := by
  intro fuel
  induction fuel with
  | zero =>
    intro i s hc hz
    unfold eraseLoop
    simp [hc]
  | succ fuel ih =>
    intro i s hc hz
    conv_lhs => unfold eraseLoop
    rw [if_pos hc, start_next_erase_zero (ready i) s hz]
    simp [ih (i + 1) s hc hz]

/-- The state after `begin(2, 4095)` erases its single budgeted sector. -/
def stuckS1 : FlashState :=
  { in_flash_mode := true
    next_write := 4095
    next_erase_sector := 1
    remaining := 2
    remaining_erase_sector := 0
    last_error := .ESP_OK
    inflator := 0
    remaining_compressed := 0 }

/-- The unaligned data call of the C7 counterexample fails for every fuel:
the C `while` loop never exits. -/
lemma handle_flash_data_unaligned_none :
    ∀ fuel : Nat, handle_flash_data (fun _ => true) false fuel 2
      (handle_flash_begin 2 4095 false initFS).1 = none := by
  intro fuel
  have hloop : eraseLoop (fun _ => true)
      (((((handle_flash_begin 2 4095 false initFS).1.next_write + 2 +
        (FLASH_SECTOR_SIZE - 1)) % U32_MOD) / FLASH_SECTOR_SIZE : Nat) : Int)
      0 fuel (handle_flash_begin 2 4095 false initFS).1 = none := by
    have hlast : (((((handle_flash_begin 2 4095 false initFS).1.next_write + 2 +
        (FLASH_SECTOR_SIZE - 1)) % U32_MOD) / FLASH_SECTOR_SIZE : Nat) : Int) = 2 := by
      decide
    rw [hlast]
    cases fuel with
    | zero => rfl
    | succ f =>
      conv_lhs => unfold eraseLoop
      rw [if_pos (by decide)]
      have hfst : (start_next_erase true
          (handle_flash_begin 2 4095 false initFS).1).1 = stuckS1 := by decide
      have hstuck := eraseLoop_stuck (fun _ => true) 2 f (0 + 1) stuckS1
        (by decide) (by decide)
      simp [hfst, hstuck]
  unfold handle_flash_data
  simp only [hloop]

/-- C7 counterexample: after `begin(total_size = 2, offset = 4095)` the
2-byte chunk at `[4095, 4097)` lies inside `[offset, offset + total_size)`
and its catch-up target is sector 2, yet the erase budget
`ceil(2/4096) = 1` sector is exhausted after one always-ready scheduler
invocation, reaching `stuckS1`: a state still short of sector 2 that is a
fixed point of the scheduler under both poll outcomes — so no finite number
of scheduler invocations ever reaches the target, and the data call (here
run with fuel 100) cannot return: the C loop spins forever. -/
theorem erase_catchup_nonterminating_unaligned :
    (handle_flash_begin 2 4095 false initFS).1.next_write = 4095 ∧
    (start_next_erase true (handle_flash_begin 2 4095 false initFS).1).1 = stuckS1 ∧
    stuckS1.next_erase_sector < 2 ∧
    start_next_erase true stuckS1 = (stuckS1, none) ∧
    start_next_erase false stuckS1 = (stuckS1, none) ∧
    handle_flash_data (fun _ => true) false 100 2
      (handle_flash_begin 2 4095 false initFS).1 = none := by
  refine ⟨rfl, by decide, by decide, by decide, by decide, ?_⟩
  exact handle_flash_data_unaligned_none 100
/-- Raw data calls preserve the sum and nonnegativity of the erase
counters. -/
lemma runData_erase_inv : ∀ (cs : List DataCall) (s s' : FlashState),
    runData cs s = some s' →
    s'.next_erase_sector + s'.remaining_erase_sector =
      s.next_erase_sector + s.remaining_erase_sector ∧
    (0 ≤ s.remaining_erase_sector → 0 ≤ s'.remaining_erase_sector) := by
  intro cs
  induction cs with
  | nil =>
    intro s s' h
    unfold runData at h
    simp only [Option.some.injEq] at h
    subst h
    exact ⟨rfl, fun h0 => h0⟩
  | cons c cs ih =>
    intro s s' h
    unfold runData at h
    rcases hd : handle_flash_data c.ready c.writeFails c.fuel c.len s with _ | s1
    · rw [hd] at h
      exact Option.noConfusion h
    · rw [hd] at h
      obtain ⟨i1, i2⟩ := ih s1 s' h
      obtain ⟨-, -, -, -, -, -, b7, b8⟩ := handle_flash_data_spec _ _ _ _ _ _ hd
      exact ⟨i1.trans b7, fun h0 => i2 (b8 h0)⟩

/-- C7 (amended): in a session begun as `begin(total_size, offset)` with the
offset sector-aligned (and the byte range not overflowing `uint32_t`), after
any returning sequence of raw data calls, a further chunk whose byte range
stays within `[offset, offset + total_size)` always finds enough erase
budget: provided the readiness poll reports ready infinitely often, some
finite fuel lets the erase catch-up loop finish, so `handle_flash_data`
returns. -/
theorem erase_catchup_terminates_aligned (t o : Nat) (u : Bool)
    (sprev : FlashState) (cs : List DataCall) (s : FlashState) (len : Nat)
    (ready : Nat → Bool) (wf : Bool)
    (halign : o % FLASH_SECTOR_SIZE = 0)
    (hbound : o + t + FLASH_SECTOR_SIZE ≤ U32_MOD)
    (hrun : runData cs (handle_flash_begin t o u sprev).1 = some s)
    (hchunk : s.next_write + len ≤ o + t)
    (hready : ∀ i, ∃ j, i ≤ j ∧ ready j = true) :
    ∃ fuel : Nat, (handle_flash_data ready wf fuel len s).isSome = true := by
  have hb1 : (handle_flash_begin t o u sprev).1.next_erase_sector =
      ((o / FLASH_SECTOR_SIZE : Nat) : Int) := rfl
  have hwrap : (t + FLASH_SECTOR_SIZE - 1) % U32_MOD = t + FLASH_SECTOR_SIZE - 1 :=
    Nat.mod_eq_of_lt (by
      unfold U32_MOD FLASH_SECTOR_SIZE at hbound ⊢
      omega)
  have hb2 : (handle_flash_begin t o u sprev).1.remaining_erase_sector =
      (((t + FLASH_SECTOR_SIZE - 1) / FLASH_SECTOR_SIZE : Nat) : Int) := by
    show ((((t + FLASH_SECTOR_SIZE - 1) % U32_MOD) / FLASH_SECTOR_SIZE : Nat) : Int) = _
    rw [hwrap]
  obtain ⟨hsum, hnn⟩ := runData_erase_inv cs _ s hrun
  have hnn' : 0 ≤ s.remaining_erase_sector := by
    refine hnn ?_
    rw [hb2]
    exact Int.ofNat_nonneg _
  have hinv : s.next_erase_sector + s.remaining_erase_sector =
      ((o / FLASH_SECTOR_SIZE + (t + FLASH_SECTOR_SIZE - 1) / FLASH_SECTOR_SIZE : Nat) : Int) := by
    rw [hsum, hb1, hb2]
    push_cast
    ring
  have hls_nat : (s.next_write + len + (FLASH_SECTOR_SIZE - 1)) % U32_MOD =
      s.next_write + len + (FLASH_SECTOR_SIZE - 1) :=
    Nat.mod_eq_of_lt (by
      unfold U32_MOD FLASH_SECTOR_SIZE at hbound ⊢
      unfold FLASH_SECTOR_SIZE at *
      omega)
  have hls_le : (s.next_write + len + (FLASH_SECTOR_SIZE - 1)) / FLASH_SECTOR_SIZE ≤
      o / FLASH_SECTOR_SIZE + (t + FLASH_SECTOR_SIZE - 1) / FLASH_SECTOR_SIZE := by
    obtain ⟨q, hq⟩ : FLASH_SECTOR_SIZE ∣ o := Nat.dvd_of_mod_eq_zero halign
    have h1 : s.next_write + len + (FLASH_SECTOR_SIZE - 1) ≤
        o + (t + FLASH_SECTOR_SIZE - 1) := by
      unfold FLASH_SECTOR_SIZE at *
      omega
    have h2 := Nat.div_le_div_right (c := FLASH_SECTOR_SIZE) h1
    have h3 : (o + (t + FLASH_SECTOR_SIZE - 1)) / FLASH_SECTOR_SIZE =
        o / FLASH_SECTOR_SIZE + (t + FLASH_SECTOR_SIZE - 1) / FLASH_SECTOR_SIZE := by
      rw [hq]
      rw [Nat.mul_add_div (by norm_num [FLASH_SECTOR_SIZE])]
      rw [Nat.mul_div_cancel_left q (by norm_num [FLASH_SECTOR_SIZE])]
    rw [h3] at h2
    exact h2
  have hlast_le : ((((s.next_write + len + (FLASH_SECTOR_SIZE - 1)) % U32_MOD) /
        FLASH_SECTOR_SIZE : Nat) : Int) ≤
      s.next_erase_sector + s.remaining_erase_sector := by
    rw [hinv, hls_nat]
    exact_mod_cast hls_le
  obtain ⟨fuel, r, hr⟩ := eraseLoop_terminates ready hready
    ((((s.next_write + len + (FLASH_SECTOR_SIZE - 1)) % U32_MOD) /
      FLASH_SECTOR_SIZE : Nat) : Int)
    (((((s.next_write + len + (FLASH_SECTOR_SIZE - 1)) % U32_MOD) /
      FLASH_SECTOR_SIZE : Nat) : Int) - s.next_erase_sector).toNat s 0
    le_rfl hlast_le hnn'
  rcases r with ⟨s1, us⟩
  refine ⟨fuel, ?_⟩
  unfold handle_flash_data
  simp only [hr]
  rfl

/-- C7 witness: after `begin(40960, 0)` (aligned), the first 8192-byte chunk
terminates with some fuel under an intermittently-ready device. -/
theorem erase_catchup_terminates_aligned_witness :
    ∃ fuel : Nat, (handle_flash_data (fun i => decide (i % 2 = 1)) false fuel 8192
        (handle_flash_begin 40960 0 false initFS).1).isSome = true :=
  erase_catchup_terminates_aligned 40960 0 false initFS [] _ 8192
    (fun i => decide (i % 2 = 1)) false (by decide) (by decide) rfl (by decide)
    (fun i => ⟨2 * i + 1, by omega, by simp [Nat.mul_add_mod]⟩)

end FlasherStub
